import Mathlib

/-!
Verification of the BrainLift Connections backend (tree extraction and
connection-inference subsystems).

The definitions below are a shallow embedding of `src/backend/main.py`
(WorkFlowy item model, tree builder, section locator, markdown renderer,
DOK section parser, section extractor) and `src/backend/groq_service.py`
(LLM reply sanitization, connection validation, per-node fan-out limiter,
batch assembly), plus a small transition system for the engine's
semaphore-bounded concurrency.

Python dictionaries representing WorkFlowy items are embedded as the
`WFItem` structure: a missing key and a `None` value are both `none`
(the source treats them identically), and Python truthiness of the
parent id is `none`-or-empty-string falsiness.  Recursive functions of
the source whose Python termination is not syntactic (they walk parent
links that could in principle be cyclic) take an explicit fuel argument
and return `none` when the fuel runs out; on inputs where the Python
code terminates, a large enough fuel yields `some`.
-/

/-- Python whitespace for `str.strip` (space, tab, newline, CR, VT, FF). -/
def isPyWs (c : Char) : Bool :=
  c == ' ' || c == '\t' || c == '\n' || c == '\r' || c == Char.ofNat 11 || c == Char.ofNat 12

/-- `str.strip()` on a character list. -/
def trimChars (cs : List Char) : List Char :=
  ((cs.dropWhile isPyWs).reverse.dropWhile isPyWs).reverse

/-- `str.strip()` as a String operation. -/
def pyStrip (s : String) : String := String.mk (trimChars s.data)

/-- `str.lower()` on a character list (ASCII case folding, as the
section names use). -/
def lowerChars (cs : List Char) : List Char := cs.map Char.toLower

/-- First index at which `needle` occurs as a contiguous sublist of the
input, if any (the semantics of Python `str.find` / leftmost regex
match of a literal). -/
def findSubstrIdx (needle : List Char) : List Char → Option Nat
  | [] => if needle.isEmpty then some 0 else none
  | c :: t =>
    if needle.isPrefixOf (c :: t) then some 0
    else (findSubstrIdx needle t).map (· + 1)

/-- Python `needle in hay` substring containment. -/
def containsSub (hay needle : List Char) : Bool :=
  (findSubstrIdx needle hay).isSome

/-- A WorkFlowy item as consumed by `main.py`: the dict keys `id`,
`prnt`, `nm`, `no`, `pr`.  A missing key and a null value are both
`none`; `pr` defaults to 0 via `item.get("pr", 0)`. -/
structure WFItem where
  id : String
  prnt : Option String := none
  nm : Option String := none
  no : Option String := none
  pr : Int := 0
deriving DecidableEq

/-- Python truthiness of a parent id: `None`, a missing key and the
empty string are falsy. -/
def truthyId : Option String → Bool
  | none => false
  | some s => !(s == "")

/-! ### Stable sort by priority

`sorted(children, key=lambda x: x.get("pr", 0))` in Python is a stable
sort: equal keys keep their input order.  We embed it as sorting the
index-tagged list by the lexicographic order on (priority, original
position), which characterises the stable sort uniquely. -/

/-- Lexicographic order on (original position, item) pairs: by priority
first, by original position on ties. -/
def pr_key_rel : (Nat × WFItem) → (Nat × WFItem) → Prop :=
  fun a b => a.2.pr < b.2.pr ∨ (a.2.pr = b.2.pr ∧ a.1 ≤ b.1)

instance : DecidableRel pr_key_rel := fun a b => by
  unfold pr_key_rel; exact inferInstance

instance : IsTotal (Nat × WFItem) pr_key_rel := by
  constructor; intro a b; unfold pr_key_rel; omega

instance : IsTrans (Nat × WFItem) pr_key_rel := by
  constructor; intro a b c; unfold pr_key_rel; omega

/-- Python's stable `sorted(l, key=lambda x: x.get("pr", 0))`. -/
def sorted_by_pr (l : List WFItem) : List WFItem :=
  (List.insertionSort pr_key_rel l.enum).map (·.2)

/-! ### Tree builder (`WorkflowyScraper.build_tree`, main.py 199-211) -/

/-- Observable result of `build_tree`: which ids were entered into the
root mapping `tree`, and which (parent, child) attachments were made to
the `children` lists, in loop order. -/
structure BuildResult where
  roots : List String
  edges : List (String × String)
deriving DecidableEq

/-- One iteration of the `build_tree` loop body: attach to the parent
when the parent id is truthy and present among the item ids, make a
root when the parent id is falsy, and otherwise do nothing. -/
def build_tree_step (ids : List String) (acc : BuildResult) (item : WFItem) : BuildResult :=
  match item.prnt with
  | some p =>
    if p ≠ "" then
      if ids.contains p then ⟨acc.roots, acc.edges ++ [(p, item.id)]⟩ else acc
    else ⟨acc.roots ++ [item.id], acc.edges⟩
  | none => ⟨acc.roots ++ [item.id], acc.edges⟩

/-- `build_tree(items)` (main.py 199-211), observed as the list of root
ids and the list of parent-child attachments. -/
def build_tree (items : List WFItem) : BuildResult :=
  items.foldl (build_tree_step (items.map (·.id))) ⟨[], []⟩

/-! ### Section locator (`find_section_node`, main.py 275-295) -/

/-- `SECTION_VARIANTS` (main.py 256-272). -/
def SECTION_VARIANTS : String → List String
  | "owners" => ["Owner", "Owners", "owner", "owners"]
  | "purpose" => ["Purpose", "purpose", "Mission", "mission"]
  | "experts" => ["Experts", "experts", "Expert", "expert"]
  | "dok2" => ["DOK2 - Knowledge Tree", "DOK2 - knowledge tree", "DOK2-Knowledge Tree",
               "DOK2", "Knowledge Tree", "knowledge tree", "DOK1 and DOK2", "DOK1/DOK2"]
  | "dok3" => ["DOK3 - Insights", "DOK3-Insights", "DOK3 - insights",
               "DOK3", "Insights", "insights"]
  | "dok4" => ["DOK4 - SPOV", "DOK4-SPOV", "DOK4 - SPOVs", "DOK4-SPOVs",
               "DOK4", "SPOV", "SPOVs", "SpikyPOVs", "Spiky POVs", "SpikyPOV"]
  | _ => []

/-- The inner variant test of `find_section_node`: the item's stripped
name, lowercased, contains some variant (lowercased) as a substring. -/
def name_matches_any (variants : List String) (it : WFItem) : Bool :=
  let nameL := lowerChars (trimChars (it.nm.getD "").data)
  variants.any (fun v => containsSub nameL (lowerChars v.data))

/-- The root search at the top of `find_section_node`: the first item
whose `prnt` key is missing or null. -/
def find_root_item (items : List WFItem) : Option WFItem :=
  items.find? (fun it => it.prnt.isNone)

/-- `find_section_node(items, section_variants)` (main.py 275-295).
Note the `if not root_id` guard: a root whose id is the empty string
(falsy in Python) makes the function return `None`. -/
def find_section_node (items : List WFItem) (variants : List String) : Option WFItem :=
  match (find_root_item items).map (·.id) with
  | none => none
  | some rid =>
    if rid = "" then none
    else items.find? (fun it => it.prnt == some rid && name_matches_any variants it)

/-- `get_node_children(items, parent_id)` (main.py 298-300). -/
def get_node_children (items : List WFItem) (parent_id : String) : List WFItem :=
  items.filter (fun it => it.prnt == some parent_id)

/-! ### Markdown renderer (`get_node_content_recursive`, main.py 303-317) -/

/-- The `"  " * level` indent string. -/
def indent_str (level : Nat) : String := String.mk (List.replicate (2 * level) ' ')

/-- Sequential all-or-nothing traversal: the embedding of a Python
`for` loop whose body may diverge — if any element's computation
diverges (`none`), the whole loop diverges. -/
def mapOption {α β : Type} (f : α → Option β) : List α → Option (List β)
  | [] => some []
  | a :: l =>
    match f a, mapOption f l with
    | some b, some bs => some (b :: bs)
    | _, _ => none

/-- `get_node_content_recursive(items, node, level)` (main.py 303-317),
with explicit fuel bounding the recursion depth. -/
def get_node_content_recursive : Nat → List WFItem → WFItem → Nat → Option String
  | 0, _, _, _ => none
  | fuel + 1, items, node, level =>
    let name := pyStrip (node.nm.getD "")
    let note := pyStrip (node.no.getD "")
    let head := indent_str level ++ "- " ++ name ++ "\n"
    let head2 := if note = "" then head else head ++ indent_str level ++ "  " ++ note ++ "\n"
    match mapOption (fun c => get_node_content_recursive fuel items c (level + 1))
        (sorted_by_pr (get_node_children items node.id)) with
    | none => none
    | some strs => some (head2 ++ String.join strs)

/-! ### DOK section parser (`parse_dok_section`, main.py 320-350) -/

/-- A `DOKItem` (main.py 38-43). -/
structure DOKItem where
  index : Nat
  content : String
  children : List String
deriving DecidableEq

/-- A `DOKSection` (main.py 45-48). -/
structure DOKSection where
  raw : String
  items : List DOKItem
deriving DecidableEq

/-- One iteration of the `for idx, child in enumerate(sorted(children, ...))`
loop of `parse_dok_section`: index `idx + 1`, content name (plus note on
a new line when present), children the stripped full renders of the
child's own direct children in priority order. -/
def mk_dok_item (fuel : Nat) (items : List WFItem) (idx : Nat) (child : WFItem) :
    Option DOKItem :=
  let name := pyStrip (child.nm.getD "")
  let note := pyStrip (child.no.getD "")
  match mapOption (fun sub => get_node_content_recursive fuel items sub 0)
      (sorted_by_pr (get_node_children items child.id)) with
  | none => none
  | some subStrs =>
    some { index := idx + 1,
           content := if note = "" then name else name ++ "\n" ++ note,
           children := subStrs.map pyStrip }

/-- The enumerated loop of `parse_dok_section` over the
priority-sorted children, starting at index `idx`. -/
def build_dok_items (fuel : Nat) (items : List WFItem) : Nat → List WFItem → Option (List DOKItem)
  | _, [] => some []
  | idx, c :: cs =>
    match mk_dok_item fuel items idx c, build_dok_items fuel items (idx + 1) cs with
    | some d, some ds => some (d :: ds)
    | _, _ => none

/-- `parse_dok_section(items, section_node)` (main.py 320-350). -/
def parse_dok_section (fuel : Nat) (items : List WFItem) (node : WFItem) : Option DOKSection :=
  match get_node_content_recursive fuel items node 0,
        build_dok_items fuel items 0 (sorted_by_pr (get_node_children items node.id)) with
  | some raw, some ds => some ⟨raw, ds⟩
  | _, _ => none

/-! ### Section extraction (`extract_sections`, main.py 361-390) -/

/-- `BrainLiftSections` (main.py 51-58). -/
structure BrainLiftSections where
  owners : String := ""
  purpose : String := ""
  experts : String := ""
  dok2_knowledge_tree : Option DOKSection := none
  dok3_insights : Option DOKSection := none
  dok4_spov : Option DOKSection := none
deriving DecidableEq

/-- `extract_root_name(items)` (main.py 353-358). -/
def extract_root_name (items : List WFItem) : String :=
  match find_root_item items with
  | some it => pyStrip (it.nm.getD "Untitled BrainLift")
  | none => "Untitled BrainLift"

/-- `extract_sections(items)` (main.py 361-390). -/
def extract_sections (fuel : Nat) (items : List WFItem) : Option BrainLiftSections :=
  let renderOpt : Option WFItem → Option String := fun
    | none => some ""
    | some n => get_node_content_recursive fuel items n 0
  let parseOpt : Option WFItem → Option (Option DOKSection) := fun
    | none => some none
    | some n => (parse_dok_section fuel items n).map some
  match renderOpt (find_section_node items (SECTION_VARIANTS "owners")),
        renderOpt (find_section_node items (SECTION_VARIANTS "purpose")),
        renderOpt (find_section_node items (SECTION_VARIANTS "experts")),
        parseOpt (find_section_node items (SECTION_VARIANTS "dok2")),
        parseOpt (find_section_node items (SECTION_VARIANTS "dok3")),
        parseOpt (find_section_node items (SECTION_VARIANTS "dok4")) with
  | some ow, some pu, some ex, some d2, some d3, some d4 =>
    some { owners := ow, purpose := pu, experts := ex,
           dok2_knowledge_tree := d2, dok3_insights := d3, dok4_spov := d4 }
  | _, _, _, _, _, _ => none

/-- Decidable parent-cycle test: following resolved parent links from
some item returns to that item's id within `items.length` steps. -/
def chain_hits : Nat → List WFItem → String → WFItem → Bool
  | 0, _, _, _ => false
  | n + 1, items, target, it =>
    match it.prnt with
    | none => false
    | some p =>
      match items.find? (fun j => j.id == p) with
      | none => false
      | some par => par.id == target || chain_hits n items target par

/-- The node list contains a parent cycle: some node is its own
transitive parent through resolved parent links. -/
def has_parent_cycle (items : List WFItem) : Bool :=
  items.any (fun it => chain_hits items.length items it.id it)

/-!
## Connection inference engine (`groq_service.py`)

The LLM reply arrives as free text; `_call_llm` (groq_service.py 80-132)
strips reasoning delimiters and code fences, extracts a brace-delimited
object, and parses it with `json.loads`.  We embed the sanitization
pipeline character-exactly and `json.loads` as a strict JSON parser.
-/

/-- `MAX_CONCURRENT_REQUESTS = 5` (groq_service.py 25). -/
def MAX_CONCURRENT_REQUESTS : Nat := 5

/-- `MAX_CONNECTIONS_PER_NODE = 2` (groq_service.py 26). -/
def MAX_CONNECTIONS_PER_NODE : Nat := 2

/-- JSON values. -/
inductive JVal where
  | jnull
  | jbool (b : Bool)
  | jnum (n : Int)
  | jstr (s : String)
  | jarr (xs : List JVal)
  | jobj (fields : List (String × JVal))

/-- JSON whitespace accepted between tokens by `json.loads`. -/
def isJsonWs (c : Char) : Bool :=
  c == ' ' || c == '\t' || c == '\n' || c == '\r'

/-- Skip JSON inter-token whitespace. -/
def skipWs (cs : List Char) : List Char := cs.dropWhile isJsonWs

/-- Hexadecimal digit value, for string escapes. -/
def hexVal (c : Char) : Option Nat :=
  if c.isDigit then some (c.toNat - 48)
  else if 'a' ≤ c ∧ c ≤ 'f' then some (c.toNat - 87)
  else if 'A' ≤ c ∧ c ≤ 'F' then some (c.toNat - 55)
  else none

/-- Parse the body of a JSON string after the opening quote, handling
the standard escapes; returns the decoded characters and the rest of
the input after the closing quote. -/
def parseStringRest : Nat → List Char → Option (List Char × List Char)
  | 0, _ => none
  | f + 1, cs =>
    match cs with
    | [] => none
    | c :: t =>
      if c = '"' then some ([], t)
      else if c = '\\' then
        match t with
        | [] => none
        | e :: t2 =>
          if e = 'u' then
            match t2 with
            | h1 :: h2 :: h3 :: h4 :: t3 =>
              match hexVal h1, hexVal h2, hexVal h3, hexVal h4 with
              | some a, some b, some cc, some d =>
                (parseStringRest f t3).map
                  (fun p => (Char.ofNat (((a * 16 + b) * 16 + cc) * 16 + d) :: p.1, p.2))
              | _, _, _, _ => none
            | _ => none
          else
            let ch : Option Char :=
              if e = '"' then some '"'
              else if e = '\\' then some '\\'
              else if e = '/' then some '/'
              else if e = 'n' then some '\n'
              else if e = 't' then some '\t'
              else if e = 'r' then some '\r'
              else if e = 'b' then some (Char.ofNat 8)
              else if e = 'f' then some (Char.ofNat 12)
              else none
            match ch with
            | none => none
            | some ch => (parseStringRest f t2).map (fun p => (ch :: p.1, p.2))
      else (parseStringRest f t).map (fun p => (c :: p.1, p.2))

/-- Consume a run of decimal digits, accumulating their value. -/
def takeDigits : List Char → Nat → Nat × List Char
  | [], acc => (acc, [])
  | c :: t, acc =>
    if c.isDigit then takeDigits t (acc * 10 + (c.toNat - 48)) else (acc, c :: t)

/-- Parse a JSON integer numeral (an optional minus sign and digits).
Modelled from the spec: `json.loads` is the Python standard-library
JSON parser, an external collaborator of this repository; this model
covers JSON with integer numerals only — a numeral continuing with a
fraction or exponent is outside the model and fails here. -/
def parseNumber (cs : List Char) : Option (JVal × List Char) :=
  let signed := match cs with
    | '-' :: t => (true, t)
    | _ => (false, cs)
  match signed.2 with
  | c :: _ =>
    if c.isDigit then
      let dr := takeDigits signed.2 0
      match dr.2 with
      | '.' :: _ => none
      | 'e' :: _ => none
      | 'E' :: _ => none
      | _ => some (JVal.jnum (if signed.1 then -(dr.1 : Int) else (dr.1 : Int)), dr.2)
    else none
  | [] => none

mutual

/-- Parse a single JSON value.  Modelled from the spec: this is the
grammar accepted by the external `json.loads` collaborator (restricted
to integer numerals), with explicit fuel; every recursive call consumes
at least one input character, so fuel beyond the input length never
runs out. -/
def parseVal : Nat → List Char → Option (JVal × List Char)
  | 0, _ => none
  | f + 1, cs =>
    match cs with
    | [] => none
    | c :: rest =>
      if c = '\x7b' then
        match skipWs rest with
        | '\x7d' :: r2 => some (JVal.jobj [], r2)
        | r => parseMembers f r []
      else if c = '[' then
        match skipWs rest with
        | ']' :: r2 => some (JVal.jarr [], r2)
        | r => parseElems f r []
      else if c = '"' then
        (parseStringRest (rest.length + 1) rest).map (fun p => (JVal.jstr (String.mk p.1), p.2))
      else if c = 't' then
        if ['r', 'u', 'e'].isPrefixOf rest then some (JVal.jbool true, rest.drop 3) else none
      else if c = 'f' then
        if ['a', 'l', 's', 'e'].isPrefixOf rest then some (JVal.jbool false, rest.drop 4) else none
      else if c = 'n' then
        if ['u', 'l', 'l'].isPrefixOf rest then some (JVal.jnull, rest.drop 3) else none
      else if c = '-' ∨ c.isDigit then parseNumber cs
      else none

/-- Parse the members of a JSON object after the opening brace. -/
def parseMembers : Nat → List Char → List (String × JVal) → Option (JVal × List Char)
  | 0, _, _ => none
  | f + 1, cs, acc =>
    match cs with
    | '"' :: rest =>
      match parseStringRest (rest.length + 1) rest with
      | none => none
      | some (k, r1) =>
        match skipWs r1 with
        | ':' :: r3 =>
          match parseVal f (skipWs r3) with
          | none => none
          | some (v, r4) =>
            match skipWs r4 with
            | ',' :: r6 => parseMembers f (skipWs r6) (acc ++ [(String.mk k, v)])
            | '\x7d' :: r6 => some (JVal.jobj (acc ++ [(String.mk k, v)]), r6)
            | _ => none
        | _ => none
    | _ => none

/-- Parse the elements of a JSON array after the opening bracket. -/
def parseElems : Nat → List Char → List JVal → Option (JVal × List Char)
  | 0, _, _ => none
  | f + 1, cs, acc =>
    match parseVal f cs with
    | none => none
    | some (v, r1) =>
      match skipWs r1 with
      | ',' :: r3 => parseElems f (skipWs r3) (acc ++ [v])
      | ']' :: r3 => some (JVal.jarr (acc ++ [v]), r3)
      | _ => none

end

/-- `json.loads` on a character list: one JSON value, whole input
consumed up to whitespace.  Modelled from the spec: the external
Python JSON parser (integer numerals only). -/
def json_loads (cs : List Char) : Option JVal :=
  match parseVal (2 * cs.length + 8) (skipWs cs) with
  | some (v, rest) => if skipWs rest = [] then some v else none
  | none => none

/-! ### Reply sanitization (`_call_llm`, groq_service.py 96-123) -/

/-- `re.sub(r"<think>.*?</think>", "", content, flags=re.DOTALL)`:
remove each non-greedy reasoning block, scanning left to right.  A
`<think>` with no later `</think>` matches nothing and stops the
scan (no later occurrence can close either). -/
def removeThinkAux : Nat → List Char → List Char
  | 0, cs => cs
  | f + 1, cs =>
    match findSubstrIdx "<think>".data cs with
    | none => cs
    | some i =>
      let after := cs.drop (i + 7)
      match findSubstrIdx "</think>".data after with
      | none => cs
      | some j => cs.take i ++ removeThinkAux f (after.drop (j + 8))

/-- The reasoning-block removal pass, with fuel covering the input. -/
def removeThink (cs : List Char) : List Char := removeThinkAux (cs.length + 1) cs

/-- The fenced-code-block cleanup (`content.split("` ` `")[1]` after a
leading fence, minus a `json` language tag, stripped); the fence is
three backticks.  When the content does not start with a fence it is
returned unchanged. -/
def stripFenceChars (cs : List Char) : List Char :=
  let fence := "```".data
  if fence.isPrefixOf cs then
    match findSubstrIdx fence cs with
    | none => cs
    | some i =>
      let rest := cs.drop (i + 3)
      let part1 := match findSubstrIdx fence rest with
        | none => rest
        | some j => rest.take j
      let part2 := if ("json".data).isPrefixOf part1 then part1.drop 4 else part1
      trimChars part2
  else cs

/-- The brace-object extraction: when the content does not start with
an opening brace, `re.search(r"\x7b.*\x7d", content, re.DOTALL)` picks
the first opening brace through the last closing brace (greedy match);
with no such span the content is left unchanged. -/
def extractBracesChars (cs : List Char) : List Char :=
  match cs with
  | '\x7b' :: _ => cs
  | _ =>
    match cs.findIdx? (· == '\x7b'), cs.reverse.findIdx? (· == '\x7d') with
    | some i, some rj =>
      let j := cs.length - 1 - rj
      if i < j then (cs.take (j + 1)).drop i else cs
    | _, _ => cs

/-- The sanitization pipeline of `_call_llm` (groq_service.py 91-120):
empty reply fails; otherwise strip, remove reasoning blocks, strip,
clean a leading code fence, extract the brace object, and fail if
nothing is left. -/
def sanitize_content (raw : String) : Option (List Char) :=
  if raw.data = [] then none
  else
    let c1 := trimChars raw.data
    let c2 := trimChars (removeThink c1)
    let c3 := stripFenceChars c2
    let c4 := extractBracesChars c3
    if c4 = [] then none else some c4

/-- `_call_llm` after the transport call: sanitize the raw reply text
and parse it as JSON; any failure yields `None` (groq_service.py
80-132).  The transport call itself (network, timeout) is outside the
embedding; the raw reply string is the input. -/
def call_llm_parse (raw : String) : Option JVal :=
  (sanitize_content raw).bind json_loads

/-! ### Connection validation (`find_dok2_connections_for_dok3`,
groq_service.py 155-183; `find_dok3_connections_for_dok4` is verbatim
the same logic against the other tier pair) -/

/-- A validated `{id, type}` pair as built at groq_service.py 177-180:
the declared candidate id and the raw `type` value,
`conn.get("type", "supports")`. -/
structure ConnPair where
  id : Int
  type : JVal

/-- Python dict lookup on a parsed JSON object.  `json.loads` keeps the
last value for a duplicated key, hence the reverse search. -/
def objLookup (fields : List (String × JVal)) (k : String) : Option JVal :=
  (fields.reverse.find? (fun p => p.1 == k)).map (·.2)

/-- Python truthiness of a parsed JSON value: `None`, `False`, `0`,
the empty string, the empty list and the empty dict are falsy. -/
def jvalTruthy : JVal → Bool
  | JVal.jnull => false
  | JVal.jbool b => b
  | JVal.jnum n => !(n == 0)
  | JVal.jstr s => !(s == "")
  | JVal.jarr xs => !xs.isEmpty
  | JVal.jobj fs => !fs.isEmpty

/-- Outcome of one validation of a parsed reply: either the function
returns a (possibly empty) list of validated pairs, or it raises an
uncaught `TypeError`.  The `try` in the source covers only `_call_llm`
itself (groq_service.py 83-132); an exception thrown at the
`"connections" in result` test or the `result["connections"]`
subscript (groq_service.py 171-172) escapes the per-item coroutine. -/
inductive FindResult where
  | ok (conns : List ConnPair)
  | typeError

/-- The validation of a parsed reply (groq_service.py 171-183),
including its crash behavior.  `if result and "connections" in result:`
first tests Python truthiness; on a truthy number or boolean the `in`
itself raises TypeError; on a truthy list or string the `in` is
element membership or substring containment, and when it succeeds the
subsequent `result["connections"]` subscript raises TypeError.  Only a
dict reaches the list check: its `connections` value must be a list;
each element must be a dict whose `id` is among the valid item
indices; `type` defaults to `"supports"`; at most the first survivor
is kept. -/
def extract_connections (result : Option JVal) (validIndices : List Int) : FindResult :=
  match result with
  | none => FindResult.ok []
  | some r =>
    if jvalTruthy r then
      match r with
      | JVal.jobj fields =>
        match objLookup fields "connections" with
        | some (JVal.jarr conns) =>
          FindResult.ok ((conns.filterMap (fun c =>
            match c with
            | JVal.jobj cf =>
              match objLookup cf "id" with
              | some (JVal.jnum n) =>
                if validIndices.contains n then
                  some ⟨n, (objLookup cf "type").getD (JVal.jstr "supports")⟩
                else none
              | _ => none
            | _ => none)).take 1)
        | some _ => FindResult.ok []
        | none => FindResult.ok []
      | JVal.jarr xs =>
        if xs.any (fun x => match x with | JVal.jstr s => s == "connections" | _ => false)
        then FindResult.typeError else FindResult.ok []
      | JVal.jstr s =>
        if containsSub s.data "connections".data
        then FindResult.typeError else FindResult.ok []
      | _ => FindResult.typeError
    else FindResult.ok []

/-- `find_dok2_connections_for_dok3(dok3_item, dok2_items)` with the
model reply supplied as input (groq_service.py 155-183): guard on an
empty candidate list, one LLM call, sanitization, validation.  The
candidate items enter only through their `index` fields. -/
def find_dok2_connections_for_dok3 (reply : String) (validIndices : List Int) :
    FindResult :=
  if validIndices.isEmpty then FindResult.ok []
  else extract_connections (call_llm_parse reply) validIndices

/-- The awaited outcome of one task of the gather: `some` its return
value when the call returns, `none` when it raises. -/
def find_result_to_task : FindResult → Option (List ConnPair)
  | FindResult.ok conns => some conns
  | FindResult.typeError => none

/-! ### Fan-out limiter (`_limit_connections_per_node`,
groq_service.py 215-231) -/

/-- An assembled connection dict (groq_service.py 258-265): `type`
carries the raw JSON value, exactly as the Python dict does. -/
structure Connection where
  source_index : Int
  target_index : Int
  type : JVal
  score : Int
  reasoning : String

/-- The `_limit_connections_per_node` loop with its running
`defaultdict(int)` of per-node counts. -/
def limit_connections_aux (key : Connection → Int) :
    List Connection → (Int → Nat) → List Connection
  | [], _ => []
  | c :: rest, counts =>
    if counts (key c) < MAX_CONNECTIONS_PER_NODE then
      c :: limit_connections_aux key rest
        (fun v => if v = key c then counts v + 1 else counts v)
    else limit_connections_aux key rest counts

/-- `_limit_connections_per_node(connections, key)` (groq_service.py
215-231): scan in order, keep a connection only while its node has not
reached the cap. -/
def limit_connections_per_node (conns : List Connection) (key : Connection → Int) :
    List Connection :=
  limit_connections_aux key conns (fun _ => 0)

/-- The two sequential capping passes applied to a tier pair's
connection list (groq_service.py 292-295): source side first, then
target side on its result. -/
def cap_fanout (conns : List Connection) : List Connection :=
  limit_connections_per_node
    (limit_connections_per_node conns (fun c => c.source_index))
    (fun c => c.target_index)

/-! ### Batch assembly (`analyze_all_connections`, groq_service.py 233-304) -/

/-- `conn["type"] == "supports"` in Python: a JSON value equals the
string `"supports"` exactly when it is that string. -/
def isSupportsType : JVal → Bool
  | JVal.jstr s => s == "supports"
  | _ => false

/-- The per-item gather of one tier pair (groq_service.py 249-254):
`asyncio.gather` runs one call per item and yields the list of the
results in item order when every call returns; when any call raises
(the TypeError of a truthy non-dict reply), the gather re-raises the
exception and the whole batch aborts with no result list. -/
def analyze_tier_results (replies : Nat → String) (validIndices : List Int)
    (numTargets : Nat) : Option (List (List ConnPair)) :=
  mapOption
    (fun i => find_result_to_task (find_dok2_connections_for_dok3 (replies i) validIndices))
    (List.range numTargets)

/-- The assembly loop (groq_service.py 256-266): each validated pair
becomes a connection dict with fixed score 95 and templated
reasoning. -/
def build_tier_connections (targetIdxs : List Int) (results : List (List ConnPair)) :
    List Connection :=
  (targetIdxs.zip results).foldl (fun acc p =>
    acc ++ p.2.map (fun conn =>
      { source_index := conn.id,
        target_index := p.1,
        type := conn.type,
        score := 95,
        reasoning := if isSupportsType conn.type then "Direct support identified"
                     else "Direct contradiction identified" })) []

/-- `analyze_all_connections(dok2_items, dok3_items, dok4_items)`
(groq_service.py 233-304), with the model replies for the two batches
supplied as inputs: the tier-3 batch against tier-2 candidates, the
tier-4 batch against tier-3 candidates, then the two capping passes on
each pair.  When either gather re-raises a per-item TypeError the
whole analysis aborts with no result. -/
def analyze_all_connections (dok2Idxs dok3Idxs dok4Idxs : List Int)
    (replies23 replies34 : Nat → String) : Option (List Connection × List Connection) :=
  let d23opt : Option (List Connection) :=
    if ¬dok3Idxs.isEmpty ∧ ¬dok2Idxs.isEmpty then
      (analyze_tier_results replies23 dok2Idxs dok3Idxs.length).map
        (build_tier_connections dok3Idxs)
    else some []
  let d34opt : Option (List Connection) :=
    if ¬dok4Idxs.isEmpty ∧ ¬dok3Idxs.isEmpty then
      (analyze_tier_results replies34 dok3Idxs dok4Idxs.length).map
        (build_tier_connections dok4Idxs)
    else some []
  match d23opt, d34opt with
  | some d23, some d34 => some (cap_fanout d23, cap_fanout d34)
  | _, _ => none

/-!
## Concurrency model (`GroqService.__init__` / `_call_llm`,
groq_service.py 74-89; spec section 5)

Each inference call runs `async with self.semaphore:` around the model
call, where `self.semaphore = asyncio.Semaphore(MAX_CONCURRENT_REQUESTS)`.
Modelled from the spec: the semaphore semantics (a counting semaphore
whose `acquire` waits while the count is zero and whose `async with`
releases on completion and on failure alike) belongs to the Python
runtime, not to `src/`; the transition system below is its standard
small-step model.  A task is created, waits on the semaphore, runs its
model call while holding the permit, and finishes — successfully or
with an error — returning the permit either way.
-/

/-- The lifecycle of one inference call. -/
inductive TaskState where
  | idle
  | waiting
  | running
  | finished
deriving DecidableEq

/-- The engine state: the per-task states and the semaphore's free
permit count. -/
structure EngineState where
  tasks : List TaskState
  permits : Nat
deriving DecidableEq

/-- Number of model calls in flight. -/
def countRunning (s : EngineState) : Nat :=
  s.tasks.countP (fun t => t == TaskState.running)

/-- One interleaving step of the engine: a task starts waiting on the
semaphore, acquires a permit (only if one is free), or finishes —
successfully or with an error — releasing its permit in both cases. -/
inductive EngineStep : EngineState → EngineState → Prop where
  | start (s : EngineState) (i : Nat) (h : s.tasks[i]? = some TaskState.idle) :
      EngineStep s ⟨s.tasks.set i TaskState.waiting, s.permits⟩
  | acquire (s : EngineState) (i : Nat) (h : s.tasks[i]? = some TaskState.waiting)
      (hp : 0 < s.permits) :
      EngineStep s ⟨s.tasks.set i TaskState.running, s.permits - 1⟩
  | finishOk (s : EngineState) (i : Nat) (h : s.tasks[i]? = some TaskState.running) :
      EngineStep s ⟨s.tasks.set i TaskState.finished, s.permits + 1⟩
  | finishFail (s : EngineState) (i : Nat) (h : s.tasks[i]? = some TaskState.running) :
      EngineStep s ⟨s.tasks.set i TaskState.finished, s.permits + 1⟩

/-- The initial state for a document whose tiers hold `n` items in
total: no call issued yet, all `MAX_CONCURRENT_REQUESTS` permits
free. -/
def initEngineState (n : Nat) : EngineState :=
  ⟨List.replicate n TaskState.idle, MAX_CONCURRENT_REQUESTS⟩

/-- States the engine can reach from the initial state. -/
def EngineReachable (n : Nat) (s : EngineState) : Prop :=
  Relation.ReflTransGen EngineStep (initEngineState n) s

/-!
## Concrete fixtures

Inputs used by the witness and counterexample theorems below.
-/

/-- The two-node parent cycle: A's parent is B and B's parent is A. -/
def cycle_items : List WFItem :=
  [{ id := "a", prnt := some "b", nm := some "A" },
   { id := "b", prnt := some "a", nm := some "B" }]

/-- The reply exercised by the spec: a reasoning block followed by one
contradiction connection against id 2. -/
def think_reply : String :=
  "<think>reasoning</think>\x7b\"connections\": [\x7b\"id\": 2, \"type\": \"contradicts\"\x7d]\x7d"

/-- The same reply shape but with the invalid id 99. -/
def reply_99 : String :=
  "<think>reasoning</think>\x7b\"connections\": [\x7b\"id\": 99, \"type\": \"contradicts\"\x7d]\x7d"

/-- A reply that parses to the truthy non-dict JSON value `5`: the
Python `"connections" in result` test raises TypeError on it. -/
def crash_reply : String := "5"

/-- A single node with a name and a note. -/
def single_note_node : WFItem := { id := "x", nm := some "name", no := some "note" }

/-- A node whose parent id matches no node in the list. -/
def dangling_parent_item : WFItem := { id := "a", prnt := some "zz" }

/-- A root whose id is the empty string (falsy in Python). -/
def empty_id_root : WFItem := { id := "", nm := some "Root" }

/-- A child of the empty-id root whose name matches the owners
variants. -/
def empty_root_child : WFItem := { id := "c", prnt := some "", nm := some "Owners" }

/-- A root child named "DOK4 - SPOVs". -/
def dok4_named_child : WFItem := { id := "c1", prnt := some "r", nm := some "DOK4 - SPOVs" }

/-- A root child named "Random Topic". -/
def random_topic_child : WFItem := { id := "c2", prnt := some "r", nm := some "Random Topic" }

/-- The six section keys of `SECTION_VARIANTS`. -/
def section_keys : List String := ["owners", "purpose", "experts", "dok2", "dok3", "dok4"]

/-- A small well-formed document: root, one DOK4 section, two items
out of priority order, one sub-item. -/
def demo_root : WFItem := { id := "r", nm := some "My BrainLift" }

def demo_sec4 : WFItem := { id := "s4", prnt := some "r", nm := some "DOK4 - SPOVs", pr := 3 }

def demo_item_a : WFItem :=
  { id := "i41", prnt := some "s4", nm := some "Spov one", no := some "a note", pr := 2 }

def demo_item_b : WFItem := { id := "i42", prnt := some "s4", nm := some "Spov two", pr := 1 }

def demo_sub : WFItem := { id := "sub", prnt := some "i41", nm := some "evidence", pr := 0 }

def demo_items : List WFItem := [demo_root, demo_sec4, demo_item_a, demo_item_b, demo_sub]

/-- The parsed DOK4 section of the demo document. -/
def demo_dok4_section : DOKSection :=
  { raw := "- DOK4 - SPOVs\n  - Spov two\n  - Spov one\n    a note\n    - evidence\n",
    items := [{ index := 1, content := "Spov two", children := [] },
              { index := 2, content := "Spov one\na note", children := ["- evidence"] }] }

/-- A support connection with the fixed score and reasoning the engine
assigns. -/
def mk_support_conn (s t : Int) : Connection :=
  { source_index := s, target_index := t, type := JVal.jstr "supports",
    score := 95, reasoning := "Direct support identified" }

/-- Ten connections that all name tier-2 item 1 as source (the fan-out
scenario of the spec). -/
def ten_same_source : List Connection :=
  (List.range 10).map (fun i => mk_support_conn 1 ((i : Int) + 1))

/-- An engine state with one call in flight, reached by issuing and
admitting the first of three tasks. -/
def engine_demo_state : EngineState :=
  ⟨[TaskState.running, TaskState.idle, TaskState.idle], MAX_CONCURRENT_REQUESTS - 1⟩

/-!
## Helper lemmas
-/

theorem sorted_by_pr_perm (l : List WFItem) : List.Perm (sorted_by_pr l) l := by
  have h1 : List.Perm (List.insertionSort pr_key_rel l.enum) l.enum := List.perm_insertionSort _ _
  have h2 : List.Perm ((List.insertionSort pr_key_rel l.enum).map Prod.snd) (l.enum.map Prod.snd) :=
    h1.map _
  have h3 : l.enum.map Prod.snd = l := List.enumFrom_map_snd 0 l
  rw [h3] at h2
  exact h2

theorem sorted_by_pr_sorted (l : List WFItem) :
    (sorted_by_pr l).Sorted (fun a b : WFItem => a.pr ≤ b.pr) := by
  have h := List.sorted_insertionSort pr_key_rel l.enum
  have h2 : ((List.insertionSort pr_key_rel l.enum).map Prod.snd).Pairwise
      (fun a b : WFItem => a.pr ≤ b.pr) := by
    refine List.Pairwise.map Prod.snd ?_ h
    intro a b hab
    unfold pr_key_rel at hab
    omega
  exact h2

theorem mapOption_spec {α β : Type} (f : α → Option β) :
    ∀ (l : List α) (ys : List β), mapOption f l = some ys →
      ys.length = l.length ∧ ∀ k : Nat, ys[k]? = l[k]?.bind f := by
  intro l
  induction l with
  | nil =>
    intro ys h
    simp only [mapOption, Option.some.injEq] at h
    subst h
    simp
  | cons a l ih =>
    intro ys h
    simp only [mapOption] at h
    cases hfa : f a with
    | none => rw [hfa] at h; simp at h
    | some b =>
      rw [hfa] at h
      cases hml : mapOption f l with
      | none => rw [hml] at h; simp at h
      | some bs =>
        rw [hml] at h
        simp only [Option.some.injEq] at h
        subst h
        obtain ⟨hlen, hget⟩ := ih bs hml
        constructor
        · simp [hlen]
        · intro k
          cases k with
          | zero => simp [hfa]
          | succ k => simpa using hget k

theorem mapOption_none_of_mem {α β : Type} (f : α → Option β) :
    ∀ (l : List α) (a : α), a ∈ l → f a = none → mapOption f l = none := by
  intro l
  induction l with
  | nil => intro a ha _; cases ha
  | cons x l ih =>
    intro a ha hfa
    cases ha with
    | head =>
      simp only [mapOption, hfa]
    | tail _ hmem =>
      simp only [mapOption, ih a hmem hfa]
      cases f x <;> rfl

theorem mapOption_ne_none {α β : Type} (f : α → Option β) :
    ∀ l : List α, (∀ a ∈ l, f a ≠ none) → mapOption f l ≠ none := by
  intro l
  induction l with
  | nil => intro _; simp [mapOption]
  | cons x l ih =>
    intro hall
    have hx := hall x (List.mem_cons_self x l)
    cases hfx : f x with
    | none => exact absurd hfx hx
    | some b =>
      have hrec := ih (fun a ha => hall a (List.mem_cons_of_mem x ha))
      cases hml : mapOption f l with
      | none => exact absurd hml hrec
      | some bs => simp [mapOption, hfx, hml]

theorem limit_aux_sublist (key : Connection → Int) :
    ∀ (l : List Connection) (counts : Int → Nat),
      List.Sublist (limit_connections_aux key l counts) l := by
  intro l
  induction l with
  | nil => intro counts; simp [limit_connections_aux]
  | cons c rest ih =>
    intro counts
    unfold limit_connections_aux
    by_cases h : counts (key c) < MAX_CONNECTIONS_PER_NODE
    · simp only [h, if_true]
      exact (ih _).cons₂ c
    · simp only [h, if_false]
      exact (ih _).cons c

theorem limit_aux_countP (key : Connection → Int) (v : Int) :
    ∀ (l : List Connection) (counts : Int → Nat),
      (limit_connections_aux key l counts).countP (fun c => key c == v) ≤
        MAX_CONNECTIONS_PER_NODE - counts v := by
  intro l
  induction l with
  | nil => intro counts; simp [limit_connections_aux]
  | cons c rest ih =>
    intro counts
    unfold limit_connections_aux
    by_cases h : counts (key c) < MAX_CONNECTIONS_PER_NODE
    · simp only [h, if_true, List.countP_cons]
      by_cases hv : key c = v
      · subst hv
        have hrec := ih (fun w => if w = key c then counts w + 1 else counts w)
        simp at hrec
        simp only [beq_self_eq_true, if_true]
        omega
      · have hvc : ¬v = key c := fun hh => hv hh.symm
        have hne : ((key c == v) = false) := by
          simp only [beq_eq_false_iff_ne, ne_eq]; exact hv
        have hrec := ih (fun w => if w = key c then counts w + 1 else counts w)
        simp only [if_neg hvc] at hrec
        simp only [hne, Bool.false_eq_true, if_false]
        omega
    · simp only [h, if_false]
      exact ih counts

theorem limit_aux_filter_take (key : Connection → Int) (v : Int) :
    ∀ (l : List Connection) (counts : Int → Nat),
      (limit_connections_aux key l counts).filter (fun c => key c == v) =
        (l.filter (fun c => key c == v)).take (MAX_CONNECTIONS_PER_NODE - counts v) := by
  intro l
  induction l with
  | nil => intro counts; simp [limit_connections_aux]
  | cons c rest ih =>
    intro counts
    unfold limit_connections_aux
    by_cases h : counts (key c) < MAX_CONNECTIONS_PER_NODE
    · simp only [h, if_true]
      rw [List.filter_cons, List.filter_cons]
      by_cases hv : key c = v
      · subst hv
        simp only [beq_self_eq_true, if_true]
        have hsucc : MAX_CONNECTIONS_PER_NODE - counts (key c) =
            (MAX_CONNECTIONS_PER_NODE - (counts (key c) + 1)) + 1 := by omega
        rw [hsucc, List.take_succ_cons]
        have hrec := ih (fun w => if w = key c then counts w + 1 else counts w)
        simp at hrec
        rw [hrec]
      · have hvc : ¬v = key c := fun hh => hv hh.symm
        have hne : ((key c == v) = false) := by
          simp only [beq_eq_false_iff_ne, ne_eq]; exact hv
        simp only [hne, Bool.false_eq_true, if_false]
        have hrec := ih (fun w => if w = key c then counts w + 1 else counts w)
        simp only [if_neg hvc] at hrec
        rw [hrec]
    · simp only [h, if_false]
      rw [ih counts, List.filter_cons]
      by_cases hv : key c = v
      · subst hv
        simp only [beq_self_eq_true, if_true]
        have hz : MAX_CONNECTIONS_PER_NODE - counts (key c) = 0 := by omega
        rw [hz]
        simp
      · have hne : ((key c == v) = false) := by
          simp only [beq_eq_false_iff_ne, ne_eq]; exact hv
        simp only [hne, Bool.false_eq_true, if_false]

theorem limit_aux_keep_all (key : Connection → Int) :
    ∀ (l : List Connection) (counts : Int → Nat),
      (∀ v, counts v + l.countP (fun c => key c == v) ≤ MAX_CONNECTIONS_PER_NODE) →
      limit_connections_aux key l counts = l := by
  intro l
  induction l with
  | nil => intro counts _; simp [limit_connections_aux]
  | cons c rest ih =>
    intro counts hle
    unfold limit_connections_aux
    have hc := hle (key c)
    rw [List.countP_cons] at hc
    simp only [beq_self_eq_true, if_true] at hc
    have hlt : counts (key c) < MAX_CONNECTIONS_PER_NODE := by omega
    simp only [hlt, if_true]
    congr 1
    apply ih
    intro v
    have hv := hle v
    rw [List.countP_cons] at hv
    by_cases hvv : v = key c
    · subst hvv
      simp only [beq_self_eq_true, if_true] at hv
      simp only [eq_self_iff_true, if_true, ite_true]
      simp
      omega
    · have hne : ((key c == v) = false) := by
        simp only [beq_eq_false_iff_ne, ne_eq]
        exact fun hh => hvv hh.symm
      rw [hne] at hv
      simp only [hvv, if_false]
      omega

theorem limit_sublist (conns : List Connection) (key : Connection → Int) :
    List.Sublist (limit_connections_per_node conns key) conns :=
  limit_aux_sublist key conns _

theorem limit_countP (conns : List Connection) (key : Connection → Int) (v : Int) :
    (limit_connections_per_node conns key).countP (fun c => key c == v) ≤
      MAX_CONNECTIONS_PER_NODE := by
  have h := limit_aux_countP key v conns (fun _ => 0)
  simpa using h

theorem limit_idem (conns : List Connection) (key : Connection → Int) :
    limit_connections_per_node (limit_connections_per_node conns key) key =
      limit_connections_per_node conns key := by
  apply limit_aux_keep_all
  intro v
  have h := limit_countP conns key v
  omega

theorem build_tree_foldl (ids : List String) :
    ∀ (l : List WFItem) (acc : BuildResult),
      l.foldl (build_tree_step ids) acc =
        ⟨acc.roots ++ (l.filter (fun it => !truthyId it.prnt)).map (·.id),
         acc.edges ++
           (l.filter (fun it =>
             truthyId it.prnt && ids.contains (it.prnt.getD ""))).map
             (fun it => (it.prnt.getD "", it.id))⟩ := by
  intro l
  induction l with
  | nil => intro acc; simp
  | cons a l ih =>
    intro acc
    rw [List.foldl_cons, ih]
    cases hp : a.prnt with
    | none =>
      simp [build_tree_step, truthyId, hp, List.filter_cons]
    | some p =>
      by_cases hpe : p = ""
      · subst hpe
        simp [build_tree_step, truthyId, hp, List.filter_cons]
      · by_cases hc : p ∈ ids
        · simp [build_tree_step, truthyId, hp, hpe, hc, List.filter_cons]
        · simp [build_tree_step, truthyId, hp, hpe, hc, List.filter_cons]

theorem mk_dok_item_index (fuel : Nat) (items : List WFItem) (n : Nat) (c : WFItem)
    (d : DOKItem) (h : mk_dok_item fuel items n c = some d) : d.index = n + 1 := by
  unfold mk_dok_item at h
  split at h
  · exact absurd h (by simp)
  · simp only [Option.some.injEq] at h
    subst h
    rfl

theorem build_dok_items_spec (fuel : Nat) (items : List WFItem) :
    ∀ (cs : List WFItem) (n : Nat) (ds : List DOKItem),
      build_dok_items fuel items n cs = some ds →
      ds.map (·.index) = List.range' (n + 1) cs.length ∧
      ds.length = cs.length ∧
      ∀ k : Nat, ds[k]? = cs[k]?.bind (fun c => mk_dok_item fuel items (n + k) c) := by
  intro cs
  induction cs with
  | nil =>
    intro n ds h
    simp only [build_dok_items, Option.some.injEq] at h
    subst h
    simp [List.range']
  | cons c cs ih =>
    intro n ds h
    simp only [build_dok_items] at h
    cases hd : mk_dok_item fuel items n c with
    | none => rw [hd] at h; simp at h
    | some d =>
      rw [hd] at h
      cases hds : build_dok_items fuel items (n + 1) cs with
      | none => rw [hds] at h; simp at h
      | some ds' =>
        rw [hds] at h
        simp only [Option.some.injEq] at h
        subst h
        obtain ⟨h1, h2, h3⟩ := ih (n + 1) ds' hds
        refine ⟨?_, ?_, ?_⟩
        · have hidx := mk_dok_item_index fuel items n c d hd
          simp only [List.length_cons, List.range'_succ, List.map_cons, hidx, h1]
        · simp [h2]
        · intro k
          cases k with
          | zero => simp [hd]
          | succ k =>
            have hk := h3 k
            have harith : n + 1 + k = n + (k + 1) := by omega
            rw [harith] at hk
            simpa using hk

theorem engine_step_invariant {s s' : EngineState} (h : EngineStep s s')
    (hinv : countRunning s + s.permits = MAX_CONCURRENT_REQUESTS) :
    countRunning s' + s'.permits = MAX_CONCURRENT_REQUESTS := by
  cases h with
  | start i hi =>
    obtain ⟨hlt, hget⟩ := List.getElem?_eq_some.mp hi
    unfold countRunning at hinv ⊢
    have hset := List.countP_set (fun t => t == TaskState.running) s.tasks i TaskState.waiting hlt
    rw [hget] at hset
    simp at hset
    simp only [hset]
    omega
  | acquire i hi hp =>
    obtain ⟨hlt, hget⟩ := List.getElem?_eq_some.mp hi
    unfold countRunning at hinv ⊢
    have hset := List.countP_set (fun t => t == TaskState.running) s.tasks i TaskState.running hlt
    rw [hget] at hset
    simp at hset
    simp only [hset]
    omega
  | finishOk i hi =>
    obtain ⟨hlt, hget⟩ := List.getElem?_eq_some.mp hi
    have hset := List.countP_set (fun t => t == TaskState.running) s.tasks i TaskState.finished hlt
    have hone := List.boole_getElem_le_countP (fun t => t == TaskState.running) s.tasks i hlt
    rw [hget] at hset hone
    have hone2 : 1 ≤ List.countP (fun t => t == TaskState.running) s.tasks := by
      simpa using hone
    have hset2 : List.countP (fun t => t == TaskState.running) (s.tasks.set i TaskState.finished) =
        List.countP (fun t => t == TaskState.running) s.tasks - 1 := by
      simpa using hset
    unfold countRunning at hinv ⊢
    dsimp only at hinv ⊢
    omega
  | finishFail i hi =>
    obtain ⟨hlt, hget⟩ := List.getElem?_eq_some.mp hi
    have hset := List.countP_set (fun t => t == TaskState.running) s.tasks i TaskState.finished hlt
    have hone := List.boole_getElem_le_countP (fun t => t == TaskState.running) s.tasks i hlt
    rw [hget] at hset hone
    have hone2 : 1 ≤ List.countP (fun t => t == TaskState.running) s.tasks := by
      simpa using hone
    have hset2 : List.countP (fun t => t == TaskState.running) (s.tasks.set i TaskState.finished) =
        List.countP (fun t => t == TaskState.running) s.tasks - 1 := by
      simpa using hset
    unfold countRunning at hinv ⊢
    dsimp only at hinv ⊢
    omega

theorem engine_reachable_invariant (n : Nat) (s : EngineState) (h : EngineReachable n s) :
    countRunning s + s.permits = MAX_CONCURRENT_REQUESTS := by
  induction h with
  | refl =>
    unfold countRunning initEngineState
    have hz : (List.replicate n TaskState.idle).countP (fun t => t == TaskState.running) = 0 := by
      rw [List.countP_eq_zero]
      intro a ha
      rw [List.eq_of_mem_replicate ha]
      simp
    simp [hz]
  | tail _ hstep ih => exact engine_step_invariant hstep ih

/-!
## Claim theorems
-/

/-- C1: the claim demands that extraction on a node list containing a
parent cycle fail with a StructureError.  The code has no such guard:
on the two-node cycle (A's parent is B, B's parent is A) extraction
terminates normally — the cycle leaves the list without a root, every
section lookup returns none, and the result is an empty
`BrainLiftSections` with the default title, with no error of any kind,
for every fuel (the render recursion is never entered). -/
theorem c1_cycle_extraction_no_error (fuel : Nat) :
    extract_sections fuel cycle_items =
      some { owners := "", purpose := "", experts := "",
             dok2_knowledge_tree := none, dok3_insights := none, dok4_spov := none } ∧
    extract_root_name cycle_items = "Untitled BrainLift" ∧
    has_parent_cycle cycle_items = true :=
  ⟨rfl, rfl, rfl⟩

/-- C2 counterexample: a node whose parent id ("zz") matches no node
in the list is dropped by `build_tree` — it appears neither among the
roots (as the claim asserts it must) nor as a child. -/
theorem c2_counterexample :
    dangling_parent_item.prnt = some "zz" ∧
    (build_tree [dangling_parent_item]).roots = [] ∧
    (build_tree [dangling_parent_item]).edges = [] :=
  ⟨rfl, rfl, rfl⟩

/-- C2 (amended): `build_tree` makes a node a root exactly when its
parent id is missing, null or empty (Python-falsy); a node whose
non-empty parent id matches no node id in the list is dropped
entirely; every node whose non-empty parent id matches some node id is
attached as a child of that parent. -/
theorem c2_build_tree_characterization (items : List WFItem) :
    (build_tree items).roots = (items.filter (fun it => !truthyId it.prnt)).map (·.id) ∧
    (build_tree items).edges =
      (items.filter (fun it =>
        truthyId it.prnt && (items.map (·.id)).contains (it.prnt.getD ""))).map
        (fun it => (it.prnt.getD "", it.id)) ∧
    (∀ it, it ∈ items → truthyId it.prnt = false → it.id ∈ (build_tree items).roots) ∧
    (∀ it, it ∈ items → truthyId it.prnt = true →
      (items.map (·.id)).contains (it.prnt.getD "") = true →
      (it.prnt.getD "", it.id) ∈ (build_tree items).edges) := by
  have h := build_tree_foldl (items.map (·.id)) items ⟨[], []⟩
  unfold build_tree
  rw [h]
  refine ⟨by simp, by simp, ?_, ?_⟩
  · intro it hmem hfal
    simp only [List.nil_append]
    exact List.mem_map_of_mem _ (List.mem_filter.mpr ⟨hmem, by simp [hfal]⟩)
  · intro it hmem htru hcont
    simp only [List.nil_append]
    refine List.mem_map_of_mem _ (List.mem_filter.mpr ⟨hmem, ?_⟩)
    simp only [htru, Bool.true_and]
    simpa using hcont

/-- C2 witness: in the demo document the parentless root is entered as
a root and the section node is attached as a child of the root. -/
theorem c2_witness :
    demo_root.id ∈ (build_tree demo_items).roots ∧
    (demo_sec4.prnt.getD "", demo_sec4.id) ∈ (build_tree demo_items).edges :=
  ⟨(c2_build_tree_characterization demo_items).2.2.1 demo_root (by decide) rfl,
   (c2_build_tree_characterization demo_items).2.2.2 demo_sec4 (by decide) rfl rfl⟩

/-- C3: after the two capping passes every node occurs as source in at
most 2 kept connections and as target in at most 2; the kept list is a
subsequence of the input; the capping is exactly the source-side
greedy filter followed by the target-side greedy filter; each greedy
filter keeps, per node, exactly the earliest `MAX_CONNECTIONS_PER_NODE`
connections in the existing order; and on ten connections that all
name the same tier-2 source, exactly 2 survive with that source. -/
theorem c3_fanout_cap_bounds (conns : List Connection) (v : Int) :
    (cap_fanout conns).countP (fun c => c.source_index == v) ≤ MAX_CONNECTIONS_PER_NODE ∧
    (cap_fanout conns).countP (fun c => c.target_index == v) ≤ MAX_CONNECTIONS_PER_NODE ∧
    List.Sublist (cap_fanout conns) conns ∧
    cap_fanout conns =
      limit_connections_per_node
        (limit_connections_per_node conns (fun c => c.source_index))
        (fun c => c.target_index) ∧
    (∀ (l : List Connection) (key : Connection → Int),
      (limit_connections_per_node l key).filter (fun c => key c == v) =
        (l.filter (fun c => key c == v)).take MAX_CONNECTIONS_PER_NODE) ∧
    (cap_fanout ten_same_source).countP (fun c => c.source_index == 1) = 2 := by
  refine ⟨?_, ?_, ?_, rfl, ?_, by decide⟩
  · have h1 := limit_countP conns (fun c => c.source_index) v
    have h2 : List.Sublist (cap_fanout conns)
        (limit_connections_per_node conns (fun c => c.source_index)) :=
      limit_sublist _ _
    exact le_trans (h2.countP_le _) h1
  · exact limit_countP _ (fun c => c.target_index) v
  · exact (limit_sublist _ _).trans (limit_sublist _ _)
  · intro l key
    have h := limit_aux_filter_take key v l (fun _ => 0)
    simpa using h

/-- C7: extraction is deterministic — on equal inputs with no parent
cycle, the extracted title and sections are equal (the embedding is a
pure function of the node list; no other state enters). -/
theorem c7_extraction_deterministic (fuel : Nat) (items1 items2 : List WFItem)
    (_hnc : has_parent_cycle items1 = false) (heq : items1 = items2) :
    extract_root_name items1 = extract_root_name items2 ∧
    extract_sections fuel items1 = extract_sections fuel items2 := by
  subst heq
  exact ⟨rfl, rfl⟩

/-- C7 witness: the demo document has no parent cycle and extraction
on it is deterministic. -/
theorem c7_witness :
    has_parent_cycle demo_items = false ∧
    extract_sections 10 demo_items = extract_sections 10 demo_items :=
  ⟨rfl, (c7_extraction_deterministic 10 demo_items demo_items rfl rfl).2⟩

/-- C9: in every reachable engine state the number of model calls in
flight is at most the concurrency limit 5; when exactly 5 are in
flight no permit is free, so the `acquire` step (whose rule demands a
free permit) cannot fire and a further call must wait; and every step
from a reachable state keeps the bound.  Both finish steps — success
and failure — return the permit by construction of the transition
system. -/
theorem c9_concurrency_bound (n : Nat) (s : EngineState) (h : EngineReachable n s) :
    countRunning s ≤ MAX_CONCURRENT_REQUESTS ∧
    (countRunning s = MAX_CONCURRENT_REQUESTS → s.permits = 0) ∧
    ∀ s2, EngineStep s s2 → countRunning s2 ≤ MAX_CONCURRENT_REQUESTS := by
  have hinv := engine_reachable_invariant n s h
  refine ⟨by omega, by omega, ?_⟩
  intro s2 hs
  have hinv2 := engine_step_invariant hs hinv
  omega

/-- C9 witness: the state after issuing and admitting one of three
calls is reachable and satisfies the bound. -/
theorem c9_witness :
    EngineReachable 3 engine_demo_state ∧
    countRunning engine_demo_state ≤ MAX_CONCURRENT_REQUESTS := by
  have h1 : EngineStep (initEngineState 3)
      ⟨[TaskState.waiting, TaskState.idle, TaskState.idle], MAX_CONCURRENT_REQUESTS⟩ :=
    EngineStep.start (initEngineState 3) 0 rfl
  have h2 : EngineStep
      ⟨[TaskState.waiting, TaskState.idle, TaskState.idle], MAX_CONCURRENT_REQUESTS⟩
      engine_demo_state :=
    EngineStep.acquire _ 0 rfl (by decide)
  have hre : EngineReachable 3 engine_demo_state :=
    Relation.ReflTransGen.tail (Relation.ReflTransGen.tail Relation.ReflTransGen.refl h1) h2
  exact ⟨hre, (c9_concurrency_bound 3 engine_demo_state hre).1⟩

/-- C10: the per-node limiter is a stable filter — its output is a
subsequence of its input, preserving relative order — and it is
idempotent: applying it twice with the same key equals applying it
once. -/
theorem c10_limiter_stable_idempotent (conns : List Connection) (key : Connection → Int) :
    List.Sublist (limit_connections_per_node conns key) conns ∧
    limit_connections_per_node (limit_connections_per_node conns key) key =
      limit_connections_per_node conns key :=
  ⟨limit_sublist conns key, limit_idem conns key⟩

/-- C4: the spec's reasoning-delimited reply sanitizes to exactly one
contradiction connection against item index 2 whenever 2 is among the
valid indices of the call; the same reply declaring the invalid index
99 returns zero connections without raising; a reply that fails to
parse as JSON after sanitization returns zero connections without
raising — so neither failure mode aborts the batch; whenever the
gather yields a result list it has one entry per item, each computed
by that item's single call on its own reply (no retry); a call that
raises TypeError (a truthy non-dict parse result, e.g. the reply "5")
aborts the whole gather; a batch none of whose calls raises always
completes; and each call's outcome depends only on its own reply. -/
theorem c4_sanitize_and_validate :
    (∀ valid : List Int, valid.contains 2 = true →
      find_dok2_connections_for_dok3 think_reply valid =
        FindResult.ok [⟨2, JVal.jstr "contradicts"⟩]) ∧
    (∀ valid : List Int, valid.contains 99 = false →
      find_dok2_connections_for_dok3 reply_99 valid = FindResult.ok []) ∧
    (∀ (reply : String) (valid : List Int), call_llm_parse reply = none →
      find_dok2_connections_for_dok3 reply valid = FindResult.ok []) ∧
    (∀ (replies : Nat → String) (valid : List Int) (numTargets : Nat)
        (results : List (List ConnPair)),
      analyze_tier_results replies valid numTargets = some results →
      results.length = numTargets ∧
      ∀ i : Nat, i < numTargets →
        results[i]? =
          find_result_to_task (find_dok2_connections_for_dok3 (replies i) valid)) ∧
    (∀ (replies : Nat → String) (valid : List Int) (numTargets j : Nat),
      j < numTargets →
      find_dok2_connections_for_dok3 (replies j) valid = FindResult.typeError →
      analyze_tier_results replies valid numTargets = none) ∧
    (∀ (replies : Nat → String) (valid : List Int) (numTargets : Nat),
      (∀ i : Nat, i < numTargets →
        find_dok2_connections_for_dok3 (replies i) valid ≠ FindResult.typeError) →
      analyze_tier_results replies valid numTargets ≠ none) ∧
    (∀ (replies replies2 : Nat → String) (valid : List Int) (j : Nat),
      (∀ k, k ≠ j → replies k = replies2 k) →
      ∀ i : Nat, i ≠ j →
        find_dok2_connections_for_dok3 (replies i) valid =
          find_dok2_connections_for_dok3 (replies2 i) valid) := by
  refine ⟨?_, ?_, ?_, ?_, ?_, ?_, ?_⟩
  · intro valid hv
    have hne : valid.isEmpty = false := by
      cases valid with
      | nil => simp at hv
      | cons a l => rfl
    have hp : call_llm_parse think_reply =
        some (JVal.jobj [("connections",
          JVal.jarr [JVal.jobj [("id", JVal.jnum 2), ("type", JVal.jstr "contradicts")]])]) := rfl
    have hm : (2 : Int) ∈ valid := by simpa using hv
    simp [find_dok2_connections_for_dok3, hne, hp, extract_connections, objLookup,
      jvalTruthy, hv]
    simp [hm]
  · intro valid hv
    by_cases hemp : valid.isEmpty
    · simp [find_dok2_connections_for_dok3, hemp]
    · have hp : call_llm_parse reply_99 =
          some (JVal.jobj [("connections",
            JVal.jarr [JVal.jobj [("id", JVal.jnum 99), ("type", JVal.jstr "contradicts")]])]) :=
        rfl
      have hm : (99 : Int) ∉ valid := by simpa using hv
      simp [find_dok2_connections_for_dok3, hemp, hp, extract_connections, objLookup,
        jvalTruthy, hm]
  · intro reply valid hparse
    by_cases hemp : valid.isEmpty
    · simp [find_dok2_connections_for_dok3, hemp]
    · simp [find_dok2_connections_for_dok3, hemp, hparse, extract_connections]
  · intro replies valid numTargets results h
    obtain ⟨hlen, hget⟩ := mapOption_spec _ _ _ h
    constructor
    · simpa using hlen
    · intro i hi
      have hi2 := hget i
      rw [List.getElem?_range hi] at hi2
      simpa using hi2
  · intro replies valid numTargets j hj hcrash
    apply mapOption_none_of_mem _ _ j (List.mem_range.mpr hj)
    rw [hcrash]
    rfl
  · intro replies valid numTargets hall
    apply mapOption_ne_none
    intro a ha
    have hlt : a < numTargets := List.mem_range.mp ha
    have hnc := hall a hlt
    cases hres : find_dok2_connections_for_dok3 (replies a) valid with
    | ok cs => simp [find_result_to_task, hres]
    | typeError => exact absurd hres hnc
  · intro replies replies2 valid j hagree i hij
    rw [hagree i hij]

/-- C4 witness: against valid indices 1..3, the reasoning-delimited
reply yields the single contradiction against index 2; the id-99 reply
and unparseable garbage yield zero connections without raising, and a
two-item batch of garbage replies still completes; the reply "5"
raises TypeError and a batch containing it aborts with no result. -/
theorem c4_witness :
    find_dok2_connections_for_dok3 think_reply [1, 2, 3] =
      FindResult.ok [⟨2, JVal.jstr "contradicts"⟩] ∧
    find_dok2_connections_for_dok3 reply_99 [1, 2, 3] = FindResult.ok [] ∧
    call_llm_parse "garbage not json" = none ∧
    find_dok2_connections_for_dok3 "garbage not json" [1, 2, 3] = FindResult.ok [] ∧
    find_dok2_connections_for_dok3 crash_reply [1, 2, 3] = FindResult.typeError ∧
    analyze_tier_results (fun _ => crash_reply) [1, 2, 3] 2 = none ∧
    analyze_tier_results (fun _ => "garbage not json") [1, 2, 3] 2 ≠ none :=
  ⟨c4_sanitize_and_validate.1 [1, 2, 3] rfl,
   c4_sanitize_and_validate.2.1 [1, 2, 3] rfl,
   rfl,
   c4_sanitize_and_validate.2.2.1 "garbage not json" [1, 2, 3] rfl,
   rfl,
   c4_sanitize_and_validate.2.2.2.2.1 (fun _ => crash_reply) [1, 2, 3] 2 0 (by omega) rfl,
   c4_sanitize_and_validate.2.2.2.2.2.1 (fun _ => "garbage not json") [1, 2, 3] 2
     (fun i _ h => FindResult.noConfusion h)⟩

/-- C5 counterexample: a list with a root node whose id is the empty
string has a root, and a direct child of that root matches the owners
variants, yet the locator returns none (the Python `if not root_id`
guard treats the empty-string id as no root at all), contradicting the
claim that the first matching direct child is returned. -/
theorem c5_counterexample :
    find_root_item [empty_id_root, empty_root_child] = some empty_id_root ∧
    empty_root_child.prnt = some empty_id_root.id ∧
    name_matches_any (SECTION_VARIANTS "owners") empty_root_child = true ∧
    find_section_node [empty_id_root, empty_root_child] (SECTION_VARIANTS "owners") = none :=
  ⟨rfl, rfl, by decide, rfl⟩

/-- C5 (amended): when the list has no root node the locator returns
none; when the first root's id is the empty string (Python-falsy, so
`if not root_id` fires) the locator also returns none, for every such
list; when the first root's id is non-empty the locator returns
exactly the first item in input order that is a direct child of that
root and whose stripped name case-insensitively contains some variant;
a child named "DOK4 - SPOVs" matches the tier-4 variants and a child
named "Random Topic" matches no section's variants. -/
theorem c5_section_locator (items : List WFItem) (variants : List String) :
    (find_root_item items = none → find_section_node items variants = none) ∧
    (∀ r, find_root_item items = some r → r.id = "" →
      find_section_node items variants = none) ∧
    (∀ r, find_root_item items = some r → r.id ≠ "" →
      find_section_node items variants =
        items.find? (fun it => it.prnt == some r.id && name_matches_any variants it)) ∧
    name_matches_any (SECTION_VARIANTS "dok4") dok4_named_child = true ∧
    section_keys.all (fun k => !name_matches_any (SECTION_VARIANTS k) random_topic_child)
      = true := by
  refine ⟨?_, ?_, ?_, by decide, by decide⟩
  · intro h
    unfold find_section_node
    rw [h]
    rfl
  · intro r hr he
    unfold find_section_node
    rw [hr]
    simp only [Option.map_some']
    rw [if_pos he]
  · intro r hr hne
    unfold find_section_node
    rw [hr]
    simp only [Option.map_some']
    rw [if_neg hne]

/-- C5 witness: on the demo document the locator's result is the first
matching direct child of the root, and on the empty-id-root list the
empty-root clause of the amended claim yields none. -/
theorem c5_witness :
    find_root_item demo_items = some demo_root ∧
    find_section_node demo_items (SECTION_VARIANTS "dok4") =
      demo_items.find? (fun it => it.prnt == some demo_root.id &&
        name_matches_any (SECTION_VARIANTS "dok4") it) ∧
    find_section_node [empty_id_root, empty_root_child] (SECTION_VARIANTS "owners") = none :=
  ⟨rfl,
   (c5_section_locator demo_items (SECTION_VARIANTS "dok4")).2.2.1
     demo_root rfl (by decide),
   (c5_section_locator [empty_id_root, empty_root_child] (SECTION_VARIANTS "owners")).2.1
     empty_id_root rfl rfl⟩

/-- C6: whenever a section parses, the items' index fields are exactly
the contiguous integers 1..N where N is the number of the section
node's direct children; the items follow the stable
priority-ascending order of the children (the sorted child sequence is
a permutation of the children, sorted by priority, and item k is built
from sorted child k), regardless of the input order of the siblings. -/
theorem c6_indices_contiguous (fuel : Nat) (items : List WFItem) (node : WFItem)
    (sec : DOKSection) (h : parse_dok_section fuel items node = some sec) :
    sec.items.map (·.index) = List.range' 1 (get_node_children items node.id).length ∧
    sec.items.length = (get_node_children items node.id).length ∧
    (sorted_by_pr (get_node_children items node.id)).Sorted
      (fun a b : WFItem => a.pr ≤ b.pr) ∧
    List.Perm (sorted_by_pr (get_node_children items node.id))
      (get_node_children items node.id) ∧
    ∀ k : Nat, sec.items[k]? =
      (sorted_by_pr (get_node_children items node.id))[k]?.bind
        (fun c => mk_dok_item fuel items k c) := by
  unfold parse_dok_section at h
  cases hraw : get_node_content_recursive fuel items node 0 with
  | none => rw [hraw] at h; simp at h
  | some raw =>
    rw [hraw] at h
    cases hds : build_dok_items fuel items 0 (sorted_by_pr (get_node_children items node.id)) with
    | none => rw [hds] at h; simp at h
    | some ds =>
      rw [hds] at h
      simp only [Option.some.injEq] at h
      subst h
      obtain ⟨h1, h2, h3⟩ := build_dok_items_spec fuel items _ 0 ds hds
      have hlen : (sorted_by_pr (get_node_children items node.id)).length =
          (get_node_children items node.id).length :=
        (sorted_by_pr_perm _).length_eq
      refine ⟨?_, ?_, sorted_by_pr_sorted _, sorted_by_pr_perm _, ?_⟩
      · rw [h1, hlen]
      · rw [h2, hlen]
      · intro k
        simpa using h3 k

/-- C6 witness: the demo DOK4 section, whose two sibling items appear
in the flat list in reverse priority order, parses with indices
exactly [1, 2]. -/
theorem c6_witness :
    parse_dok_section 10 demo_items demo_sec4 = some demo_dok4_section ∧
    demo_dok4_section.items.map (·.index) =
      List.range' 1 (get_node_children demo_items demo_sec4.id).length :=
  ⟨rfl, (c6_indices_contiguous 10 demo_items demo_sec4 demo_dok4_section rfl).1⟩

/-- C8: every successful render of a node at depth d is exactly the
2*d-space indent, "- ", the stripped name and a newline, then — when
the stripped note is non-empty — the indent, two further spaces, the
note and a newline, then the concatenated renders (at depth d+1) of
the node's children sorted ascending by priority with ties in original
order; and the single node with a note renders at depth 0 to exactly
"- name\n  note\n". -/
theorem c8_render_format :
    (∀ (fuel : Nat) (items : List WFItem) (node : WFItem) (level : Nat) (s : String),
      get_node_content_recursive (fuel + 1) items node level = some s →
      ∃ childStrs : List String,
        mapOption (fun c => get_node_content_recursive fuel items c (level + 1))
          (sorted_by_pr (get_node_children items node.id)) = some childStrs ∧
        s = (if pyStrip (node.no.getD "") = ""
             then indent_str level ++ "- " ++ pyStrip (node.nm.getD "") ++ "\n"
             else indent_str level ++ "- " ++ pyStrip (node.nm.getD "") ++ "\n" ++
                  indent_str level ++ "  " ++ pyStrip (node.no.getD "") ++ "\n") ++
            String.join childStrs ∧
        (sorted_by_pr (get_node_children items node.id)).Sorted
          (fun a b : WFItem => a.pr ≤ b.pr) ∧
        List.Perm (sorted_by_pr (get_node_children items node.id))
          (get_node_children items node.id)) ∧
    get_node_content_recursive 1 [single_note_node] single_note_node 0 =
      some "- name\n  note\n" := by
  constructor
  · intro fuel items node level s h
    unfold get_node_content_recursive at h
    cases hm : mapOption (fun c => get_node_content_recursive fuel items c (level + 1))
        (sorted_by_pr (get_node_children items node.id)) with
    | none => rw [hm] at h; simp at h
    | some strs =>
      rw [hm] at h
      dsimp only at h
      simp only [Option.some.injEq] at h
      refine ⟨strs, rfl, ?_, sorted_by_pr_sorted _, sorted_by_pr_perm _⟩
      rw [← h]
  · rfl

/-- C8 witness: the single-node render equals the claimed format with
no children. -/
theorem c8_witness :
    get_node_content_recursive 1 [single_note_node] single_note_node 0 =
      some "- name\n  note\n" ∧
    ∃ childStrs : List String,
      mapOption (fun c => get_node_content_recursive 0 [single_note_node] c 1)
        (sorted_by_pr (get_node_children [single_note_node] single_note_node.id)) =
          some childStrs ∧
      "- name\n  note\n" = (if pyStrip (single_note_node.no.getD "") = ""
           then indent_str 0 ++ "- " ++ pyStrip (single_note_node.nm.getD "") ++ "\n"
           else indent_str 0 ++ "- " ++ pyStrip (single_note_node.nm.getD "") ++ "\n" ++
                indent_str 0 ++ "  " ++ pyStrip (single_note_node.no.getD "") ++ "\n") ++
          String.join childStrs ∧
      (sorted_by_pr (get_node_children [single_note_node] single_note_node.id)).Sorted
        (fun a b : WFItem => a.pr ≤ b.pr) ∧
      List.Perm (sorted_by_pr (get_node_children [single_note_node] single_note_node.id))
        (get_node_children [single_note_node] single_note_node.id) :=
  ⟨rfl, c8_render_format.1 0 [single_note_node] single_note_node 0 "- name\n  note\n" rfl⟩
